import Mathlib

/-!
Verification development for the `hetzner-dns-api` Python client library.

The definitions below are a shallow embedding of the repository's code:

* `src/hetzner_dns_api/decoding.py` — the custom timestamp codec
  (`enc_hook` / `dec_hook` with format `%Y-%m-%d %H:%M:%S.%f %z %Z`);
* `src/hetzner_dns_api/types.py` — `VerifiedTime` and `PageMeta`;
* `src/hetzner_dns_api/zone.py` — the `ZoneIterator` page cursor and the
  `DnsZone` entity view;
* `src/hetzner_dns_api/records.py` — the `DnsRecord` entity view;
* `src/hetzner_dns_api/base.py` — `BaseApiView._validate_response`.

Python strings are Lean `String`s, Python `str(n)` is `Nat.repr`, Python
`int(s)` (on a decimal numeral) is `String.toNat?`, exceptions are `Except`.
-/

/-! ### Decimal numerals

Groundwork relating `Nat.repr` (Python `str` of an `int`) and
`String.toNat?` (Python `int` of a decimal numeral string), and the digit
sequences that zero-padded `strftime` fields consist of. -/

/-- The numeric value of a digit character, as computed by `String.toNat?`
(and by CPython when parsing a digit). -/
def digitVal (c : Char) : Nat := c.toNat - Char.toNat '0'

/-- Value of a list of digit characters read in base 10, most significant
first; this is exactly the fold used by `String.toNat?`. -/
def valDigits (l : List Char) : Nat :=
  l.foldl (fun n c => n * 10 + digitVal c) 0

theorem digitChar_isDigit : ∀ d, d < 10 → (Nat.digitChar d).isDigit = true := by
  decide

theorem digitChar_val : ∀ d, d < 10 → digitVal (Nat.digitChar d) = d := by
  decide

theorem foldl_digit_shift (l : List Char) :
    ∀ init : Nat,
      l.foldl (fun n c => n * 10 + digitVal c) init =
        init * 10 ^ l.length + valDigits l := by
  induction l with
  | nil => intro init; simp [valDigits]
  | cons c l ih =>
    intro init
    simp only [List.foldl_cons, List.length_cons, valDigits] at *
    rw [ih (init * 10 + digitVal c), ih (0 * 10 + digitVal c)]
    ring

theorem valDigits_append (a b : List Char) :
    valDigits (a ++ b) = valDigits a * 10 ^ b.length + valDigits b := by
  simp only [valDigits, List.foldl_append]
  rw [foldl_digit_shift b (List.foldl (fun n c => n * 10 + digitVal c) 0 a)]
  rfl

theorem valDigits_replicate_zero (k : Nat) (l : List Char) :
    valDigits (List.replicate k '0' ++ l) = valDigits l := by
  induction k with
  | zero => simp
  | succ k ih =>
    simpa [List.replicate_succ, valDigits, digitVal] using ih

theorem toDigitsCore_append (fuel : Nat) :
    ∀ (n : Nat) (ds : List Char),
      Nat.toDigitsCore 10 fuel n ds = Nat.toDigitsCore 10 fuel n [] ++ ds := by
  induction fuel with
  | zero => intro n ds; simp [Nat.toDigitsCore]
  | succ fuel ih =>
    intro n ds
    simp only [Nat.toDigitsCore]
    by_cases h : n / 10 = 0
    · simp [h]
    · simp only [h, if_false]
      rw [ih (n / 10) [Nat.digitChar (n % 10)],
        ih (n / 10) (Nat.digitChar (n % 10) :: ds), List.append_assoc]
      rfl

/-- Core correctness of `Nat.toDigitsCore` at base 10: with enough fuel it
emits a nonempty, all-digit list whose base-10 value is the input. -/
theorem toDigitsCore_spec (n : Nat) :
    ∀ fuel, n < fuel →
      valDigits (Nat.toDigitsCore 10 fuel n []) = n ∧
      (∀ c ∈ Nat.toDigitsCore 10 fuel n [], c.isDigit = true) ∧
      Nat.toDigitsCore 10 fuel n [] ≠ [] := by
  induction n using Nat.strong_induction_on with
  | _ n ih =>
    intro fuel hfuel
    match fuel, hfuel with
    | fuel + 1, hfuel =>
      simp only [Nat.toDigitsCore]
      have hmod : n % 10 < 10 := Nat.mod_lt _ (by decide)
      by_cases h : n / 10 = 0
      · have hn : n < 10 := (Nat.div_eq_zero_iff (by decide)).mp h
        have hval : n % 10 = n := Nat.mod_eq_of_lt hn
        simp only [h, if_true]
        refine ⟨?_, ?_, by simp⟩
        · simp only [valDigits, List.foldl_cons, List.foldl_nil, Nat.zero_mul,
            Nat.zero_add]
          rw [digitChar_val _ hmod]
          exact hval
        · intro c hc
          simp only [List.mem_singleton] at hc
          subst hc
          exact digitChar_isDigit _ hmod
      · have hn10 : 10 ≤ n := by
          by_contra hlt
          exact h ((Nat.div_eq_zero_iff (by decide)).mpr (by omega))
        have hdivlt : n / 10 < n := Nat.div_lt_self (by omega) (by decide)
        have hdivfuel : n / 10 < fuel := by omega
        obtain ⟨hv, hd, hne⟩ := ih (n / 10) hdivlt fuel hdivfuel
        simp only [h, if_false]
        rw [toDigitsCore_append fuel (n / 10) [Nat.digitChar (n % 10)]]
        refine ⟨?_, ?_, by simp [hne]⟩
        · rw [valDigits_append, hv]
          have hone : valDigits [Nat.digitChar (n % 10)] = n % 10 := by
            simp only [valDigits, List.foldl_cons, List.foldl_nil, Nat.zero_mul,
              Nat.zero_add]
            exact digitChar_val _ hmod
          rw [hone]
          simp only [List.length_singleton, pow_one]
          omega
        · intro c hc
          rcases List.mem_append.mp hc with hc | hc
          · exact hd c hc
          · simp only [List.mem_singleton] at hc
            subst hc
            exact digitChar_isDigit _ hmod

theorem toDigits_spec (n : Nat) :
    valDigits (Nat.toDigits 10 n) = n ∧
    (∀ c ∈ Nat.toDigits 10 n, c.isDigit = true) ∧
    Nat.toDigits 10 n ≠ [] :=
  toDigitsCore_spec n (n + 1) (Nat.lt_succ_self n)

/-- `String.toNat?` is a left inverse of `Nat.repr`: parsing the decimal
representation of `n` (Python `int(str(n))`) gives back `n`. -/
theorem toNat?_repr (n : Nat) : (Nat.repr n).toNat? = some n := by
  obtain ⟨hval, hdig, hne⟩ := toDigits_spec n
  have hdata : (Nat.repr n).data = Nat.toDigits 10 n := rfl
  have hnotempty : Nat.repr n ≠ "" := by
    intro h
    apply hne
    have : (Nat.repr n).data = ("" : String).data := by rw [h]
    simpa [hdata] using this
  have hisnat : (Nat.repr n).isNat = true := by
    simp only [String.isNat, Bool.and_eq_true, Bool.not_eq_true']
    constructor
    · exact Bool.eq_false_iff.mpr (fun h => hnotempty ((String.isEmpty_iff _).mp h))
    · rw [String.all_eq]
      simpa [hdata, List.all_eq_true] using hdig
  simp only [String.toNat?, hisnat, if_true, Option.some.injEq]
  rw [String.foldl_eq]
  simpa [hdata, valDigits] using hval

/-! ### Timestamp codec (`decoding.py`)

`HETZNER_TIME_FORMAT = "%Y-%m-%d %H:%M:%S.%f %z %Z"`.

A `HetznerTime` models an aware `datetime` (the `HetznerTime` subclass in
`types.py`): broken-down civil fields, a UTC offset in minutes (`%z`) and a
timezone short name (`%Z`; CPython keeps the parsed name in the constructed
`timezone` object, so it is a plain field here). -/

structure HetznerTime where
  year : Nat
  month : Nat
  day : Nat
  hour : Nat
  minute : Nat
  second : Nat
  microsecond : Nat
  tzOffsetMinutes : Int
  tzName : String
deriving Repr, DecidableEq

/-- Zero-padded fixed-width decimal field, as emitted by `strftime`
(`%m`, `%d`, `%H`, `%M`, `%S` pad to 2, `%f` to 6). -/
def padDigits (w n : Nat) : List Char :=
  List.replicate (w - (Nat.toDigits 10 n).length) '0' ++ Nat.toDigits 10 n

/-- `%z`: sign followed by two-digit hours and minutes of the UTC offset. -/
def tzOffsetChars (off : Int) : List Char :=
  (if off < 0 then '-' else '+') ::
    (padDigits 2 (off.natAbs / 60) ++ padDigits 2 (off.natAbs % 60))

/-- `obj.strftime(HETZNER_TIME_FORMAT)` from `enc_hook`: the fixed layout
`YYYY-MM-DD HH:MM:SS.ffffff +HHMM ZZZ`.  Note `%f` is *microseconds*: six
zero-padded digits, not three. -/
def HetznerTime.strftime (t : HetznerTime) : String :=
  String.mk (padDigits 4 t.year ++
    '-' :: (padDigits 2 t.month ++
    '-' :: (padDigits 2 t.day ++
    ' ' :: (padDigits 2 t.hour ++
    ':' :: (padDigits 2 t.minute ++
    ':' :: (padDigits 2 t.second ++
    '.' :: (padDigits 6 t.microsecond ++
    ' ' :: (tzOffsetChars t.tzOffsetMinutes ++
    ' ' :: t.tzName.data))))))))

/-- Greedy run of at most `max` digit characters (the `\d{1,k}` pieces of
CPython `_strptime`'s field regexes). -/
def takeDigitsUpTo : Nat → List Char → List Char × List Char
  | 0, cs => ([], cs)
  | _ + 1, [] => ([], [])
  | m + 1, c :: cs =>
    if c.isDigit then
      let p := takeDigitsUpTo m cs
      (c :: p.1, p.2)
    else ([], c :: cs)

/-- A field of exactly `w` digits (`%Y` is `\d\d\d\d`; each half of the
`%z` offset is two digits). -/
def parseFixedDigits (w : Nat) (cs : List Char) : Option (Nat × List Char) :=
  if (takeDigitsUpTo w cs).1.length = w then
    some (valDigits (takeDigitsUpTo w cs).1, (takeDigitsUpTo w cs).2)
  else none

/-- A 1-2 digit numeric field whose value the `_strptime` regex constrains to
`lo..hi` (month `1..12`, day `1..31`, hour `0..23`, minute `0..59`,
second `0..61`). -/
def parseNumField (lo hi : Nat) (cs : List Char) : Option (Nat × List Char) :=
  if (takeDigitsUpTo 2 cs).1.length = 0 then none
  else if lo ≤ valDigits (takeDigitsUpTo 2 cs).1 ∧
      valDigits (takeDigitsUpTo 2 cs).1 ≤ hi then
    some (valDigits (takeDigitsUpTo 2 cs).1, (takeDigitsUpTo 2 cs).2)
  else none

/-- `%f`: one to six digits, right-padded with zeros to six, i.e. the value
is scaled to microseconds (`_strptime`: `s += "0" * (6 - len(s))`). -/
def parseFraction (cs : List Char) : Option (Nat × List Char) :=
  if (takeDigitsUpTo 6 cs).1.length = 0 then none
  else
    some (valDigits (takeDigitsUpTo 6 cs).1 *
      10 ^ (6 - (takeDigitsUpTo 6 cs).1.length), (takeDigitsUpTo 6 cs).2)

/-- A literal character of the format string. -/
def expectChar (c : Char) : List Char → Option (List Char)
  | x :: xs => if x = c then some xs else none
  | [] => none

/-- Whitespace in the format is compiled by `_strptime` to the regex
`\s+`: one or more whitespace characters. -/
def skipSpaces1 : List Char → Option (List Char)
  | x :: xs => if x.isWhitespace then some (xs.dropWhile Char.isWhitespace)
               else none
  | [] => none

/-- `%z`: `[+-]\d\d:?\d\d` (the optional seconds/fraction and the bare `Z`
alternative never occur in this codec's own output).  Result in minutes. -/
def dropOptColon : List Char → List Char
  | ':' :: more => more
  | cs => cs

def parseTzOffset : List Char → Option (Int × List Char)
  | [] => none
  | c :: cs =>
    if c = '+' ∨ c = '-' then
      (parseFixedDigits 2 cs).bind fun ph =>
      (parseFixedDigits 2 (dropOptColon ph.2)).bind fun pm =>
      some (if c = '-' then -((ph.1 : Int) * 60 + (pm.1 : Int))
            else (ph.1 : Int) * 60 + (pm.1 : Int), pm.2)
    else none

/-- Timezone names the `%Z` regex accepts.  CPython always accepts
`UTC`/`GMT` (plus locale-dependent local-zone names, which this model
omits; Hetzner emits `UTC`). -/
def strptimeZNames : List String := ["UTC", "GMT"]

/-- `%Z` at the end of the format: the remaining characters must be an
accepted timezone name. -/
def parseTzName (cs : List Char) : Option String :=
  let s := String.mk cs
  if strptimeZNames.contains s then some s else none

/-- The `%Y-%m-%d` piece of the format. -/
def parseDate (cs : List Char) : Option (Nat × Nat × Nat × List Char) :=
  (parseFixedDigits 4 cs).bind fun py =>
  (expectChar '-' py.2).bind fun cs1 =>
  (parseNumField 1 12 cs1).bind fun pmo =>
  (expectChar '-' pmo.2).bind fun cs2 =>
  (parseNumField 1 31 cs2).bind fun pd =>
  some (py.1, pmo.1, pd.1, pd.2)

/-- The `%H:%M:%S.%f` piece (with the leading whitespace). -/
def parseClock (cs : List Char) : Option (Nat × Nat × Nat × Nat × List Char) :=
  (skipSpaces1 cs).bind fun cs3 =>
  (parseNumField 0 23 cs3).bind fun ph =>
  (expectChar ':' ph.2).bind fun cs4 =>
  (parseNumField 0 59 cs4).bind fun pmi =>
  (expectChar ':' pmi.2).bind fun cs5 =>
  (parseNumField 0 61 cs5).bind fun psec =>
  (expectChar '.' psec.2).bind fun cs6 =>
  (parseFraction cs6).bind fun pf =>
  some (ph.1, pmi.1, psec.1, pf.1, pf.2)

/-- The `%z %Z` piece (with the leading whitespace). -/
def parseZone (cs : List Char) : Option (Int × String) :=
  (skipSpaces1 cs).bind fun cs7 =>
  (parseTzOffset cs7).bind fun poff =>
  (skipSpaces1 poff.2).bind fun cs8 =>
  (parseTzName cs8).bind fun name =>
  some (poff.1, name)

/-- `HetznerTime.strptime(obj, HETZNER_TIME_FORMAT)` from `dec_hook`.
Fails (Python `ValueError`) when the layout does not match.  The final
guard is the `datetime` constructor rejecting leap seconds; the
constructor's per-month day-count check is omitted (no claim depends on
rejecting impossible calendar dates). -/
def HetznerTime.strptime (s : String) : Option HetznerTime :=
  (parseDate s.data).bind fun pd =>
  (parseClock pd.2.2.2).bind fun pc =>
  (parseZone pc.2.2.2.2).bind fun pz =>
  if 59 < pc.2.2.1 then none
  else some { year := pd.1, month := pd.2.1, day := pd.2.2.1, hour := pc.1,
              minute := pc.2.1, second := pc.2.2.1, microsecond := pc.2.2.2.1,
              tzOffsetMinutes := pz.1, tzName := pz.2 }

/-! ### `VerifiedTime` (`types.py`) and the msgspec hooks (`decoding.py`) -/

/-- The runtime state of a `VerifiedTime` instance: its two attributes. -/
structure VerifiedTime where
  verified : Bool
  timestamp : Option HetznerTime
deriving Repr, DecidableEq

/-- `VerifiedTime.__init__(self, verified, timestamp=None)` from
`types.py`.  Transcribed exactly: the body assigns
`self.timestamp: HetznerTime | None = None`, discarding the `timestamp`
argument. -/
def VerifiedTime.init (verified : Bool) (timestamp : Option HetznerTime) :
    VerifiedTime :=
  { verified := verified, timestamp := none }

/-- Python exceptions surfaced by the embedded code. -/
inductive PyErr where
  /-- `ValueError` from `strptime` on a malformed timestamp string. -/
  | valueError : PyErr
  /-- `msgspec.ValidationError` from decoding a structurally wrong body. -/
  | validationError : PyErr
  /-- `HetznerApiError` (generic), carrying the formatted message text. -/
  | hetznerApiError (msg : String) : PyErr
  /-- `HetznerApiNotFoundError`, carrying the request path. -/
  | hetznerApiNotFoundError (path : String) : PyErr
  /-- `AuthorizationFailedError`. -/
  | authorizationFailedError : PyErr
  /-- `AttributeError` from reading an attribute that was never assigned. -/
  | attributeError (attr : String) : PyErr
  /-- `NotImplementedError` from the codec hooks. -/
  | notImplementedError : PyErr
deriving Repr, DecidableEq

/-- The objects `enc_hook` can receive / `dec_hook` can return. -/
inductive HookVal where
  | time (t : HetznerTime) : HookVal
  | vtime (v : VerifiedTime) : HookVal
deriving Repr, DecidableEq

/-- The `typ` dispatch argument of `dec_hook`. -/
inductive HookTyp where
  | hetznerTime : HookTyp
  | verifiedTime : HookTyp
  | other : HookTyp
deriving Repr, DecidableEq

/-- `enc_hook` from `decoding.py`: a `HetznerTime` is formatted with
`HETZNER_TIME_FORMAT`; a `VerifiedTime` is formatted from its `timestamp`
attribute when that is set (`if obj.timestamp:` — a `datetime` is always
truthy) and otherwise becomes the empty string.  (The `raise
NotImplementedError` branch for foreign types is outside `HookVal`.) -/
def enc_hook : HookVal → String
  | .time t => t.strftime
  | .vtime v =>
    match v.timestamp with
    | some t => t.strftime
    | none => ""

/-- `dec_hook` from `decoding.py`: dispatch on the target type.  A
`HetznerTime` is parsed with `strptime` (`ValueError` on mismatch); a
`VerifiedTime` decodes `""` to `VerifiedTime(verified=False)` and any other
string to `VerifiedTime(verified=True, timestamp=strptime(obj))`; any other
type raises `NotImplementedError`. -/
def dec_hook : HookTyp → String → Except PyErr HookVal
  | .hetznerTime, obj =>
    match HetznerTime.strptime obj with
    | some t => .ok (.time t)
    | none => .error .valueError
  | .verifiedTime, obj =>
    if obj = "" then .ok (.vtime (VerifiedTime.init false none))
    else
      match HetznerTime.strptime obj with
      | some t => .ok (.vtime (VerifiedTime.init true (some t)))
      | none => .error .valueError
  | .other, _ => .error .notImplementedError

/-- Field ranges of a constructible aware `datetime` value.  Years below
1000 are excluded: platform `strftime` implementations disagree on
zero-padding `%Y`, and Hetzner timestamps are contemporary. -/
def ValidTimestamp (t : HetznerTime) : Prop :=
  1000 ≤ t.year ∧ t.year ≤ 9999 ∧
  1 ≤ t.month ∧ t.month ≤ 12 ∧
  1 ≤ t.day ∧ t.day ≤ 31 ∧
  t.hour ≤ 23 ∧ t.minute ≤ 59 ∧ t.second ≤ 59 ∧
  t.microsecond < 1000000 ∧
  -1440 < t.tzOffsetMinutes ∧ t.tzOffsetMinutes < 1440

instance (t : HetznerTime) : Decidable (ValidTimestamp t) := by
  unfold ValidTimestamp
  infer_instance

/-- The canonical example timestamp from the repository's own comments and
test fixtures: `2025-09-26 06:38:40.535 +0000 UTC` (milliseconds `535`,
i.e. microsecond field `535000`). -/
def sampleTime : HetznerTime :=
  { year := 2025, month := 9, day := 26, hour := 6, minute := 38,
    second := 40, microsecond := 535000, tzOffsetMinutes := 0,
    tzName := "UTC" }

/-! ### Round-trip lemmas for the codec -/

theorem string_data_mk (l : List Char) : (String.mk l).data = l := rfl

theorem padDigits_length (w n : Nat) (h0 : 0 < w) (h : n < 10 ^ w) :
    (padDigits w n).length = w := by
  have hle : (Nat.toDigits 10 n).length ≤ w := Nat.repr_length n w h0 h
  simp only [padDigits, List.length_append, List.length_replicate]
  omega

theorem padDigits_digits (w n : Nat) : ∀ c ∈ padDigits w n, c.isDigit = true := by
  intro c hc
  rcases List.mem_append.mp hc with hc | hc
  · rw [List.eq_of_mem_replicate hc]
    decide
  · exact (toDigits_spec n).2.1 c hc

theorem valDigits_padDigits (w n : Nat) : valDigits (padDigits w n) = n := by
  unfold padDigits
  rw [valDigits_replicate_zero]
  exact (toDigits_spec n).1

theorem padDigits_head (w n : Nat) :
    ∃ c l, padDigits w n = c :: l ∧ c.isDigit = true := by
  unfold padDigits
  cases hk : w - (Nat.toDigits 10 n).length with
  | zero =>
    obtain ⟨hval, hdig, hne⟩ := toDigits_spec n
    cases hd : Nat.toDigits 10 n with
    | nil => exact absurd hd hne
    | cons c l =>
      refine ⟨c, l, by simp [hd], hdig c ?_⟩
      rw [hd]
      exact List.mem_cons_self _ _
  | succ k =>
    exact ⟨'0', List.replicate k '0' ++ Nat.toDigits 10 n,
      by simp [List.replicate_succ], by decide⟩

theorem takeDigitsUpTo_exact :
    ∀ (w : Nat) (ds rest : List Char), ds.length = w →
      (∀ c ∈ ds, c.isDigit = true) →
      takeDigitsUpTo w (ds ++ rest) = (ds, rest) := by
  intro w
  induction w with
  | zero =>
    intro ds rest hlen _
    rw [List.length_eq_zero.mp hlen]
    rfl
  | succ w ih =>
    intro ds rest hlen hdig
    cases ds with
    | nil => simp at hlen
    | cons c l =>
      simp only [List.length_cons, Nat.succ.injEq] at hlen
      have hc : c.isDigit = true := hdig c (List.mem_cons_self _ _)
      simp only [List.cons_append, takeDigitsUpTo, hc, if_true, List.append_eq]
      rw [ih l rest hlen (fun x hx => hdig x (List.mem_cons_of_mem _ hx))]

theorem parseFixedDigits_pad (w n : Nat) (rest : List Char)
    (h0 : 0 < w) (h : n < 10 ^ w) :
    parseFixedDigits w (padDigits w n ++ rest) = some (n, rest) := by
  have hlen := padDigits_length w n h0 h
  unfold parseFixedDigits
  rw [takeDigitsUpTo_exact w (padDigits w n) rest hlen (padDigits_digits w n)]
  simp [hlen, valDigits_padDigits]

theorem parseNumField_pad (lo hi n : Nat) (rest : List Char)
    (h : n < 100) (hlo : lo ≤ n) (hhi : n ≤ hi) :
    parseNumField lo hi (padDigits 2 n ++ rest) = some (n, rest) := by
  have hlen := padDigits_length 2 n (by decide) (by omega)
  unfold parseNumField
  rw [takeDigitsUpTo_exact 2 (padDigits 2 n) rest hlen (padDigits_digits 2 n)]
  simp [hlen, valDigits_padDigits, hlo, hhi]

theorem parseFraction_pad (f : Nat) (rest : List Char) (h : f < 1000000) :
    parseFraction (padDigits 6 f ++ rest) = some (f, rest) := by
  have hlen := padDigits_length 6 f (by decide) (by norm_num; omega)
  unfold parseFraction
  rw [takeDigitsUpTo_exact 6 (padDigits 6 f) rest hlen (padDigits_digits 6 f)]
  simp [hlen, valDigits_padDigits]

theorem expectChar_cons (c : Char) (rest : List Char) :
    expectChar c (c :: rest) = some rest := by
  simp [expectChar]

theorem isWhitespace_eq_false_of_isDigit (c : Char) (h : c.isDigit = true) :
    c.isWhitespace = false := by
  cases hw : c.isWhitespace
  · rfl
  · exfalso
    have hd : ((c = ' ' ∨ c = '\t') ∨ c = '\r') ∨ c = '\n' := by
      simpa [Char.isWhitespace] using hw
    rcases hd with ((h1 | h1) | h1) | h1 <;> (subst h1; simp [Char.isDigit] at h)

theorem skipSpaces1_space (l : List Char) :
    skipSpaces1 (' ' :: l) = some (l.dropWhile Char.isWhitespace) := by
  simp [skipSpaces1]

theorem dropWhile_ws_cons (c : Char) (l : List Char) (h : c.isWhitespace = false) :
    (c :: l).dropWhile Char.isWhitespace = c :: l := by
  simp [List.dropWhile_cons, h]

theorem dropOptColon_of_digit (c : Char) (l : List Char) (h : c.isDigit = true) :
    dropOptColon (c :: l) = c :: l := by
  unfold dropOptColon
  split
  · next more heq =>
    exfalso
    have : c = ':' := (List.cons.injEq _ _ _ _).mp heq |>.1
    subst this
    simp [Char.isDigit] at h
  · rfl

theorem parseDate_spec (y mo d : Nat) (rest : List Char)
    (hy1 : 1000 ≤ y) (hy2 : y ≤ 9999) (hmo1 : 1 ≤ mo) (hmo2 : mo ≤ 12)
    (hd1 : 1 ≤ d) (hd2 : d ≤ 31) :
    parseDate (padDigits 4 y ++
      '-' :: (padDigits 2 mo ++ '-' :: (padDigits 2 d ++ rest))) =
      some (y, mo, d, rest) := by
  have hy : y < 10 ^ 4 := by
    have : (10 : Nat) ^ 4 = 10000 := by norm_num
    omega
  unfold parseDate
  rw [parseFixedDigits_pad 4 y _ (by decide) hy]
  simp only [Option.some_bind]
  rw [expectChar_cons]
  simp only [Option.some_bind]
  rw [parseNumField_pad 1 12 mo _ (by omega) hmo1 hmo2]
  simp only [Option.some_bind]
  rw [expectChar_cons]
  simp only [Option.some_bind]
  rw [parseNumField_pad 1 31 d _ (by omega) hd1 hd2]
  simp only [Option.some_bind]

theorem parseClock_spec (h mi sec f : Nat) (rest : List Char)
    (hh : h ≤ 23) (hmi : mi ≤ 59) (hsec : sec ≤ 61) (hf : f < 1000000) :
    parseClock (' ' :: (padDigits 2 h ++ ':' :: (padDigits 2 mi ++
      ':' :: (padDigits 2 sec ++ '.' :: (padDigits 6 f ++ rest))))) =
      some (h, mi, sec, f, rest) := by
  unfold parseClock
  rw [skipSpaces1_space]
  obtain ⟨c0, l0, he0, hd0⟩ := padDigits_head 2 h
  rw [he0, List.cons_append,
    dropWhile_ws_cons c0 _ (isWhitespace_eq_false_of_isDigit c0 hd0),
    ← List.cons_append, ← he0]
  simp only [Option.some_bind]
  rw [parseNumField_pad 0 23 h _ (by omega) (Nat.zero_le _) hh]
  simp only [Option.some_bind]
  rw [expectChar_cons]
  simp only [Option.some_bind]
  rw [parseNumField_pad 0 59 mi _ (by omega) (Nat.zero_le _) hmi]
  simp only [Option.some_bind]
  rw [expectChar_cons]
  simp only [Option.some_bind]
  rw [parseNumField_pad 0 61 sec _ (by omega) (Nat.zero_le _) hsec]
  simp only [Option.some_bind]
  rw [expectChar_cons]
  simp only [Option.some_bind]
  rw [parseFraction_pad f rest hf]
  simp only [Option.some_bind]

theorem parseTzOffset_spec (off : Int) (rest : List Char)
    (h1 : -1440 < off) (h2 : off < 1440) :
    parseTzOffset (tzOffsetChars off ++ rest) = some (off, rest) := by
  have hH : off.natAbs / 60 < 100 := by omega
  have hM : off.natAbs % 60 < 100 := by omega
  obtain ⟨cm, lm, hem, hdm⟩ := padDigits_head 2 (off.natAbs % 60)
  by_cases hneg : off < 0
  · simp only [tzOffsetChars, hneg, if_true, List.cons_append, parseTzOffset,
      or_true]
    rw [List.append_assoc]
    rw [parseFixedDigits_pad 2 _ _ (by decide) hH]
    simp only [Option.some_bind]
    rw [hem, List.cons_append, dropOptColon_of_digit cm _ hdm,
      ← List.cons_append, ← hem]
    rw [parseFixedDigits_pad 2 _ _ (by decide) hM]
    simp only [Option.some_bind, Option.some.injEq, Prod.mk.injEq, and_true]
    have hnat : off.natAbs / 60 * 60 + off.natAbs % 60 = off.natAbs := by omega
    have hcast :
        (↑(off.natAbs / 60) * 60 + ↑(off.natAbs % 60) : Int) = ↑off.natAbs := by
      conv_rhs => rw [← hnat]
      push_cast
      ring
    have habs : ((off.natAbs : Nat) : Int) = -off :=
      Int.ofNat_natAbs_of_nonpos (le_of_lt hneg)
    rw [hcast, habs, neg_neg]
  · simp only [tzOffsetChars, hneg, if_false, List.cons_append, parseTzOffset,
      true_or]
    rw [List.append_assoc]
    rw [parseFixedDigits_pad 2 _ _ (by decide) hH]
    simp only [Option.some_bind]
    rw [hem, List.cons_append, dropOptColon_of_digit cm _ hdm,
      ← List.cons_append, ← hem]
    rw [parseFixedDigits_pad 2 _ _ (by decide) hM]
    have hplus : ¬ (('+' : Char) = '-') := by decide
    simp only [Option.some_bind, if_neg hplus, Option.some.injEq, Prod.mk.injEq,
      and_true]
    have hnat : off.natAbs / 60 * 60 + off.natAbs % 60 = off.natAbs := by omega
    have hcast :
        (↑(off.natAbs / 60) * 60 + ↑(off.natAbs % 60) : Int) = ↑off.natAbs := by
      conv_rhs => rw [← hnat]
      push_cast
      ring
    have habs : ((off.natAbs : Nat) : Int) = off :=
      Int.natAbs_of_nonneg (not_lt.mp hneg)
    rw [hcast, habs]
    simp

theorem tzOffsetChars_head (off : Int) :
    ∃ c l, tzOffsetChars off = c :: l ∧ c.isWhitespace = false := by
  by_cases hneg : off < 0
  · exact ⟨'-', padDigits 2 (off.natAbs / 60) ++ padDigits 2 (off.natAbs % 60),
      by simp [tzOffsetChars, hneg], by decide⟩
  · exact ⟨'+', padDigits 2 (off.natAbs / 60) ++ padDigits 2 (off.natAbs % 60),
      by simp [tzOffsetChars, hneg], by decide⟩

theorem parseZone_spec (off : Int) (name : String)
    (h1 : -1440 < off) (h2 : off < 1440) (hz : name ∈ strptimeZNames) :
    parseZone (' ' :: (tzOffsetChars off ++ ' ' :: name.data)) =
      some (off, name) := by
  unfold parseZone
  rw [skipSpaces1_space]
  obtain ⟨c0, l0, he0, hnw0⟩ := tzOffsetChars_head off
  rw [he0, List.cons_append, dropWhile_ws_cons c0 _ hnw0,
    ← List.cons_append, ← he0]
  simp only [Option.some_bind]
  rw [parseTzOffset_spec off _ h1 h2]
  simp only [Option.some_bind]
  rw [skipSpaces1_space]
  rcases List.mem_pair.mp hz with hn | hn <;> subst hn <;> rfl

/-- Round trip of the raw timestamp codec: `strptime` parses `strftime`
output back to the identical value, for any constructible aware datetime
whose zone name the `%Z` regex accepts. -/
theorem strptime_strftime (t : HetznerTime) (hv : ValidTimestamp t)
    (hz : t.tzName ∈ strptimeZNames) :
    HetznerTime.strptime t.strftime = some t := by
  obtain ⟨h1, h2, h3, h4, h5, h6, h7, h8, h9, h10, h11, h12⟩ := hv
  unfold HetznerTime.strptime HetznerTime.strftime
  rw [string_data_mk]
  rw [parseDate_spec t.year t.month t.day _ h1 h2 h3 h4 h5 h6]
  simp only [Option.some_bind]
  rw [parseClock_spec t.hour t.minute t.second t.microsecond _ h7 h8
    (by omega) h10]
  simp only [Option.some_bind]
  rw [parseZone_spec t.tzOffsetMinutes t.tzName h11 h12 hz]
  simp only [Option.some_bind]
  rw [if_neg (by omega)]

/-! ### Claims C4 and C5: timestamp encoding and round trip -/

/-- C4. Timestamp round-trip: for every valid `Timestamp` value truncated
to millisecond precision (carrying an explicit timezone offset, and — as
`ValidTimestamp`'s companion hypothesis makes explicit — a zone
abbreviation the `%Z` parser accepts, such as Hetzner's `UTC`), decoding
the encoding through the msgspec hooks yields the value back. -/
theorem claim_C4_timestamp_round_trip (t : HetznerTime)
    (hv : ValidTimestamp t) (hms : t.microsecond % 1000 = 0)
    (hz : t.tzName ∈ strptimeZNames) :
    dec_hook HookTyp.hetznerTime (enc_hook (HookVal.time t)) =
      Except.ok (HookVal.time t) := by
  show dec_hook HookTyp.hetznerTime t.strftime = Except.ok (HookVal.time t)
  simp [dec_hook, strptime_strftime t hv hz]

/-- Witness for C4 at the repository's own example timestamp. -/
theorem claim_C4_witness :
    ValidTimestamp sampleTime ∧ sampleTime.microsecond % 1000 = 0 ∧
    sampleTime.tzName ∈ strptimeZNames ∧
    dec_hook HookTyp.hetznerTime (enc_hook (HookVal.time sampleTime)) =
      Except.ok (HookVal.time sampleTime) :=
  ⟨by decide, by decide, by decide,
    claim_C4_timestamp_round_trip sampleTime (by decide) (by decide)
      (by decide)⟩

/-- C5 (code bug). The spec requires the fractional-seconds field of the
encoded timestamp to be exactly 3 zero-padded digits (milliseconds) — the
layout in the repository's own comment and test fixtures,
`2025-09-26 06:38:40.535 +0000 UTC`.  The code formats with `%f`, which is
six-digit microseconds: encoding the example timestamp yields
`.535000`, not `.535`. -/
theorem claim_C5_fractional_digits :
    enc_hook (HookVal.time sampleTime) =
      "2025-09-26 06:38:40.535000 +0000 UTC" ∧
    enc_hook (HookVal.time sampleTime) ≠
      "2025-09-26 06:38:40.535 +0000 UTC" := by
  constructor
  · rfl
  · decide

/-! ### Claims C1 and C3: `VerifiedTime` construction and round trip -/

/-- C1 (code bug). `VerifiedTime` round-trip through the hooks.  The
`Unverified` half holds: `Decode(Encode(Unverified)) = Unverified`.  The
`Verified` half fails: because `VerifiedTime.__init__` assigns
`self.timestamp = None` (discarding its argument), every constructed
`Verified` value carries no timestamp, encodes to `""` and decodes back to
`Unverified`. -/
theorem claim_C1_verified_time_round_trip :
    (dec_hook HookTyp.verifiedTime
        (enc_hook (HookVal.vtime (VerifiedTime.init false none))) =
      Except.ok (HookVal.vtime (VerifiedTime.init false none))) ∧
    enc_hook (HookVal.vtime (VerifiedTime.init true (some sampleTime))) = "" ∧
    (dec_hook HookTyp.verifiedTime
        (enc_hook (HookVal.vtime (VerifiedTime.init true (some sampleTime)))) =
      Except.ok (HookVal.vtime { verified := false, timestamp := none })) ∧
    ({ verified := false, timestamp := none } : VerifiedTime).verified ≠ true := by
  refine ⟨rfl, rfl, rfl, by decide⟩

/-- C3 (code bug). The spec's invariant says a `Verified` value always
carries a present timestamp.  In the code the constructor discards the
timestamp for every argument, so the value `dec_hook` builds for a valid
non-empty timestamp string has `verified = True` but `timestamp = None`. -/
theorem claim_C3_verified_invariant :
    (∀ (b : Bool) (ts : Option HetznerTime),
      (VerifiedTime.init b ts).timestamp = none) ∧
    dec_hook HookTyp.verifiedTime "2025-09-26 06:38:40.535000 +0000 UTC" =
      Except.ok (HookVal.vtime { verified := true, timestamp := none }) := by
  exact ⟨fun b ts => rfl, rfl⟩

/-! ### Pagination data model (`types.py`, `zone.py`)

Query parameters (`dict[str, str]` in Python, built from
`response.request.url.params`) are association lists with dict lookup and
assignment semantics; entities (`DnsZoneResponse` values) are opaque and
represented by `Nat` identifiers, since the cursor never inspects them. -/

structure PageMeta where
  page : Nat
  per_page : Nat
  last_page : Nat
  total_entries : Nat
deriving Repr, DecidableEq

/-- A Python `dict[str, str]` of query parameters (insertion order kept). -/
abbrev Params := List (String × String)

/-- `query.get(key)`: value of the first (for a dict: the only) binding. -/
def getParam : Params → String → Option String
  | [], _ => none
  | (k0, v0) :: rest, k => if k0 = k then some v0 else getParam rest k

/-- `query[key] = value`: overwrite the binding in place, else append. -/
def setParam : Params → String → String → Params
  | [], k, v => [(k, v)]
  | (k0, v0) :: rest, k, v =>
    if k0 = k then (k, v) :: rest else (k0, v0) :: setParam rest k v

/-- What the decoder sees in a list-endpoint response body: either it
decodes as `DnsZoneListResponse` (pagination meta plus the zone list), or
`msgspec` raises `ValidationError` (body unparsable, or required fields
such as `meta` absent). -/
inductive Body where
  | ok (meta : PageMeta) (zones : List Nat) : Body
  | malformed : Body
deriving Repr, DecidableEq

/-- An `httpx.Response` as the cursor consumes it: its text (already
classified by `Body`) and `response.request.url.params`. -/
structure Response where
  body : Body
  reqParams : Params
deriving Repr, DecidableEq

/-- `self.client.send(request)` for a request built with `params`: the
transport is a function from query parameters to a response body. -/
def clientSend (send : Params → Body) (q : Params) : Response :=
  { body := send q, reqParams := q }

/-- The mutable state of a `ZoneIterator` instance: `self.current` and
`self.response` (the client is the `send` argument of each method). -/
structure ZoneIterator where
  current : List Nat
  response : Response
deriving Repr, DecidableEq

/-- `ZoneIterator.extract_meta`: decode the response text as
`DnsZoneListResponse` and return `data.meta.pagination`.  Despite the
`PageMeta | None` annotation it never returns `None`: a body that does not
decode makes `decode_object` raise `msgspec.ValidationError`, uncaught
here. -/
def ZoneIterator.extract_meta (response : Response) : Except PyErr PageMeta :=
  match response.body with
  | .ok meta _ => .ok meta
  | .malformed => .error .validationError

/-- `ZoneIterator.extract_content`: decode the response text and return
`data.zones`; a `ValidationError` is caught and re-raised as
`HetznerApiError` (whose real message interpolates the exception and the
pretty-printed body; the model keeps a fixed prefix of it). -/
def ZoneIterator.extract_content (response : Response) :
    Except PyErr (List Nat) :=
  match response.body with
  | .ok _ zones => .ok zones
  | .malformed => .error (.hetznerApiError "Unable to parse response")

/-- `ZoneIterator.__init__`: store the response and extract its content
(the constructor itself can raise `HetznerApiError`). -/
def ZoneIterator.init (response : Response) : Except PyErr ZoneIterator :=
  (ZoneIterator.extract_content response).map
    (fun zs => { current := zs, response := response })

/-- `ZoneIterator.can_iter`. -/
def ZoneIterator.can_iter (metadata : PageMeta) : Bool :=
  metadata.page < metadata.last_page

/-- `int(s)` on the string taken from a query parameter; `none` models the
`ValueError` Python raises on a non-numeral. -/
def pyInt (s : String) : Option Nat := s.toNat?

/-- `ZoneIterator.resolve_query`: copy the previous request's parameters,
then set `page` to one past the previous `page` value, defaulting to `2`
when the walrus test `if page_num := query.get("page")` is falsy (key
absent or empty string). -/
def ZoneIterator.resolve_query (query : Params) : Option Params :=
  match getParam query "page" with
  | some s =>
    if s = "" then some (setParam query "page" (Nat.repr 2))
    else (pyInt s).map (fun n => setParam query "page" (Nat.repr (n + 1)))
  | none => some (setParam query "page" (Nat.repr 2))

/-- `ZoneIterator.get_next`: re-decode the stored response's metadata; if
`can_iter` fails, return unchanged having issued no request (the
`if not metadata` half of the guard is dead — `extract_meta` never
returns a falsy value); otherwise build the next request via
`resolve_query` (`_build_next_request` keeps method and path), send it,
and replace the state.  The first component collects the HTTP requests
issued (by their parameters), including when decoding then fails. -/
def ZoneIterator.get_next (send : Params → Body) (self : ZoneIterator) :
    List Params × Except PyErr ZoneIterator :=
  match ZoneIterator.extract_meta self.response with
  | .error e => ([], .error e)
  | .ok metadata =>
    if ZoneIterator.can_iter metadata then
      match ZoneIterator.resolve_query self.response.reqParams with
      | none => ([], .error .valueError)
      | some params =>
        match ZoneIterator.extract_content (clientSend send params) with
        | .error e => ([params], .error e)
        | .ok content =>
          ([params], .ok { current := content, response := clientSend send params })
    else ([], .ok self)

/-- What one call of `ZoneIterator.__next__` produces. -/
inductive NextResult where
  | item (z : Nat) : NextResult
  | stopIteration : NextResult
deriving Repr, DecidableEq

/-- `ZoneIterator.__next__`: refill via `get_next` when `self.current` is
empty, then pop the head, or raise `StopIteration` (modelled as the
`stopIteration` result, the iterator protocol's end signal). -/
def ZoneIterator.next (send : Params → Body) (self : ZoneIterator) :
    List Params × Except PyErr (NextResult × ZoneIterator) :=
  if self.current.isEmpty then
    match ZoneIterator.get_next send self with
    | (reqs, .error e) => (reqs, .error e)
    | (reqs, .ok s1) =>
      match s1.current with
      | [] => (reqs, .ok (.stopIteration, s1))
      | z :: rest => (reqs, .ok (.item z, { s1 with current := rest }))
  else
    match self.current with
    | [] => ([], .ok (.stopIteration, self))
    | z :: rest => ([], .ok (.item z, { self with current := rest }))

/-- How driving the iterator to the end finished. -/
inductive IterOutcome where
  | exhausted : IterOutcome
  | failed (e : PyErr) : IterOutcome
  | fuelOut : IterOutcome
deriving Repr, DecidableEq

/-- Drive `__next__` until `StopIteration` or an exception (the `for`
loop in `DnsZone.all`), collecting the yielded entities and the issued
follow-up requests; `fuel` bounds the number of steps. -/
def runIter (send : Params → Body) :
    Nat → ZoneIterator → List Nat × List Params × IterOutcome
  | 0, _ => ([], [], .fuelOut)
  | fuel + 1, s =>
    match ZoneIterator.next send s with
    | (reqs, .error e) => ([], reqs, .failed e)
    | (reqs, .ok (.stopIteration, _)) => ([], reqs, .exhausted)
    | (reqs, .ok (.item z, s1)) =>
      (z :: (runIter send fuel s1).1, reqs ++ (runIter send fuel s1).2.1,
        (runIter send fuel s1).2.2)

/-- `DnsZone.all` driven to exhaustion: issue the seed request with the
given parameters, build the iterator, and drain it.  Returns the entities
in yield order, the total number of HTTP requests issued (seed included),
and how the iteration ended. -/
def DnsZone.all_run (send : Params → Body) (params : Params) (fuel : Nat) :
    List Nat × Nat × IterOutcome :=
  match ZoneIterator.init (clientSend send params) with
  | .error e => ([], 1, .failed e)
  | .ok s =>
    ((runIter send fuel s).1, 1 + (runIter send fuel s).2.1.length,
      (runIter send fuel s).2.2)

/-! ### The well-formed mock list endpoint of claim C2 -/

/-- `ceil(N / P)` clamped to at least one page: the `last_page` a
well-formed endpoint reports (the spec requires `last_page ≥ 1`). -/
def lastPage (N P : Nat) : Nat := max 1 ((N + P - 1) / P)

/-- The entities of page `p` (1-based) when `N` entities `0, …, N-1` are
served `P` per page. -/
def pageSlice (N P p : Nat) : List Nat :=
  ((List.range N).drop ((p - 1) * P)).take P

/-- The well-formed `PageMeta` for page `p`. -/
def mockMeta (N P p : Nat) : PageMeta :=
  { page := p, per_page := P, last_page := lastPage N P, total_entries := N }

/-- A well-formed paged zone-list endpoint serving `N` entities at
`per_page = P`: it reads the 1-based page number from the `page` query
parameter (defaulting to 1) and answers with well-formed metadata and the
page's slice of entities. -/
def mockServer (N P : Nat) (q : Params) : Body :=
  match getParam q "page" with
  | some s => Body.ok (mockMeta N P ((pyInt s).getD 1)) (pageSlice N P ((pyInt s).getD 1))
  | none => Body.ok (mockMeta N P 1) (pageSlice N P 1)

/-- The parameters with which the cursor requests page `p` of the mock
endpoint when seeded with no parameters: the seed request has none, and
every follow-up carries exactly the incremented `page`. -/
def mockParams (p : Nat) : Params :=
  if p = 1 then [] else [("page", Nat.repr p)]

/-- The parameter dictionaries of the follow-up requests for pages
`start, start+1, …, start+d-1`. -/
def followParams : Nat → Nat → List Params
  | _, 0 => []
  | start, d + 1 => mockParams start :: followParams (start + 1) d

/-! ### Pagination lemmas -/

theorem repr_ne_empty (n : Nat) : Nat.repr n ≠ "" := by
  intro h
  apply (toDigits_spec n).2.2
  have : (Nat.repr n).data = ("" : String).data := by rw [h]
  simpa using this

theorem getParam_setParam_same (q : Params) (k v : String) :
    getParam (setParam q k v) k = some v := by
  induction q with
  | nil => simp [getParam, setParam]
  | cons kv rest ih =>
    by_cases h : kv.1 = k
    · simp [setParam, getParam, h]
    · simp [setParam, getParam, h, ih]

theorem getParam_setParam_other (q : Params) (k v k2 : String) (h : k2 ≠ k) :
    getParam (setParam q k v) k2 = getParam q k2 := by
  have hne : k ≠ k2 := fun he => h (Eq.symm he)
  induction q with
  | nil => simp [getParam, setParam, hne]
  | cons kv rest ih =>
    by_cases hk : kv.1 = k
    · rw [show setParam (kv :: rest) k v = (k, v) :: rest by
        simp [setParam, hk]]
      simp [getParam, hne, hk]
    · rw [show setParam (kv :: rest) k v = kv :: setParam rest k v by
        simp [setParam, hk]]
      by_cases hk2 : kv.1 = k2
      · simp [getParam, hk2]
      · simp [getParam, hk2, ih]

theorem resolve_mockParams (p : Nat) (hp : 1 ≤ p) :
    ZoneIterator.resolve_query (mockParams p) = some (mockParams (p + 1)) := by
  by_cases h1 : p = 1
  · subst h1
    rfl
  · have h2 : 2 ≤ p := by omega
    have hval : mockParams p = [("page", Nat.repr p)] := by
      simp [mockParams, h1]
    have hval2 : mockParams (p + 1) = [("page", Nat.repr (p + 1))] := by
      simp [mockParams]
      omega
    rw [hval, hval2]
    have hget : getParam [("page", Nat.repr p)] "page" = some (Nat.repr p) := by
      simp [getParam]
    simp only [ZoneIterator.resolve_query, hget]
    rw [if_neg (repr_ne_empty p)]
    simp [pyInt, toNat?_repr, setParam]

theorem mockServer_mockParams (N P p : Nat) (hp : 1 ≤ p) :
    mockServer N P (mockParams p) =
      Body.ok (mockMeta N P p) (pageSlice N P p) := by
  by_cases h1 : p = 1
  · subst h1
    rfl
  · have hval : mockParams p = [("page", Nat.repr p)] := by
      simp [mockParams, h1]
    rw [hval]
    simp [mockServer, getParam, pyInt, toNat?_repr]

theorem lastPage_pos (N P : Nat) : 1 ≤ lastPage N P := le_max_left 1 _

theorem lt_lastPage_mul (N P p : Nat) (hP : 1 ≤ P) (hp : 1 ≤ p)
    (h : p < lastPage N P) : p * P < N := by
  have hdiv : p < (N + P - 1) / P := by
    unfold lastPage at h
    rcases lt_max_iff.mp h with h1 | h1
    · omega
    · exact h1
  have h3 : (p + 1) * P ≤ N + P - 1 :=
    (Nat.le_div_iff_mul_le (by omega)).mp hdiv
  rw [Nat.add_one_mul] at h3
  set X := p * P with hX
  omega

theorem le_lastPage_mul (N P : Nat) (hP : 1 ≤ P) : N ≤ lastPage N P * P := by
  have hdm := Nat.div_add_mod (N + P - 1) P
  have hr : (N + P - 1) % P < P := Nat.mod_lt _ (by omega)
  by_cases hq : (N + P - 1) / P = 0
  · have hL : lastPage N P = 1 := by
      unfold lastPage
      rw [hq]
      simp
    rw [hq] at hdm
    simp at hdm
    rw [hL, one_mul]
    omega
  · have hpos : 1 ≤ (N + P - 1) / P := Nat.pos_of_ne_zero hq
    have hL : lastPage N P = (N + P - 1) / P := by
      unfold lastPage
      exact Nat.max_eq_right hpos
    rw [hL, Nat.mul_comm]
    obtain ⟨Y, hY⟩ : ∃ Y, P * ((N + P - 1) / P) = Y := ⟨_, rfl⟩
    obtain ⟨M, hM⟩ : ∃ M, (N + P - 1) % P = M := ⟨_, rfl⟩
    rw [hY]
    rw [hY, hM] at hdm
    rw [hM] at hr
    omega

theorem followParams_length (start d : Nat) :
    (followParams start d).length = d := by
  induction d generalizing start with
  | zero => rfl
  | succ d ih => simp [followParams, ih]

theorem pageSlice_succ (N P p : Nat) :
    pageSlice N P (p + 1) = ((List.range N).drop (p * P)).take P := by
  simp [pageSlice]

theorem pageSlice_succ_length (N P p : Nat) :
    (pageSlice N P (p + 1)).length = min P (N - p * P) := by
  simp [pageSlice_succ]

theorem pageSlice_succ_ne_nil (N P p : Nat) (hP : 1 ≤ P) (h : p * P < N) :
    pageSlice N P (p + 1) ≠ [] := by
  intro hnil
  have hlen := pageSlice_succ_length N P p
  rw [hnil] at hlen
  simp at hlen
  set X := p * P with hX
  omega

theorem runIter_cons (send : Params → Body) (fuel : Nat) (z : Nat)
    (rest : List Nat) (r : Response) :
    runIter send (fuel + 1) ⟨z :: rest, r⟩ =
      (z :: (runIter send fuel ⟨rest, r⟩).1,
       (runIter send fuel ⟨rest, r⟩).2.1,
       (runIter send fuel ⟨rest, r⟩).2.2) := by
  conv_lhs => rw [runIter]
  simp [ZoneIterator.next]

theorem runIter_drain (send : Params → Body) :
    ∀ (cur : List Nat) (fuel f : Nat) (r : Response),
      fuel = cur.length + f →
      runIter send fuel ⟨cur, r⟩ =
        (cur ++ (runIter send f ⟨[], r⟩).1,
         (runIter send f ⟨[], r⟩).2.1,
         (runIter send f ⟨[], r⟩).2.2) := by
  intro cur
  induction cur with
  | nil =>
    intro fuel f r h
    simp at h
    subst h
    simp
  | cons z rest ih =>
    intro fuel f r h
    simp only [List.length_cons] at h
    obtain rfl : fuel = (rest.length + f) + 1 := by omega
    rw [runIter_cons, ih (rest.length + f) f r rfl]
    simp

theorem runIter_terminal (send : Params → Body) (fuel : Nat)
    (meta : PageMeta) (zs : List Nat) (q : Params)
    (h : ZoneIterator.can_iter meta = false) :
    runIter send (fuel + 1) ⟨[], ⟨Body.ok meta zs, q⟩⟩ =
      ([], [], .exhausted) := by
  conv_lhs => rw [runIter]
  simp [ZoneIterator.next, ZoneIterator.get_next, ZoneIterator.extract_meta, h]

theorem runIter_advance (send : Params → Body) (fuel : Nat)
    (meta meta2 : PageMeta) (zs zrest : List Nat) (q q2 : Params) (z : Nat)
    (hc : ZoneIterator.can_iter meta = true)
    (hq : ZoneIterator.resolve_query q = some q2)
    (hsend : send q2 = Body.ok meta2 (z :: zrest)) :
    runIter send (fuel + 1) ⟨[], ⟨Body.ok meta zs, q⟩⟩ =
      (z :: (runIter send fuel ⟨zrest, clientSend send q2⟩).1,
       q2 :: (runIter send fuel ⟨zrest, clientSend send q2⟩).2.1,
       (runIter send fuel ⟨zrest, clientSend send q2⟩).2.2) := by
  conv_lhs => rw [runIter]
  simp [ZoneIterator.next, ZoneIterator.get_next, ZoneIterator.extract_meta,
    ZoneIterator.extract_content, clientSend, hc, hq, hsend]

theorem runIter_malformed (send : Params → Body) (fuel : Nat)
    (meta : PageMeta) (zs : List Nat) (q q2 : Params)
    (hc : ZoneIterator.can_iter meta = true)
    (hq : ZoneIterator.resolve_query q = some q2)
    (hsend : send q2 = Body.malformed) :
    runIter send (fuel + 1) ⟨[], ⟨Body.ok meta zs, q⟩⟩ =
      ([], [q2], .failed (PyErr.hetznerApiError "Unable to parse response")) := by
  conv_lhs => rw [runIter]
  simp [ZoneIterator.next, ZoneIterator.get_next, ZoneIterator.extract_meta,
    ZoneIterator.extract_content, clientSend, hc, hq, hsend]

/-- Main pagination run: from the exhausted-current state holding page `p`
of the mock endpoint, the cursor yields the remaining entities in order,
requesting exactly the remaining pages, and then signals exhaustion. -/
theorem mock_drain (N P : Nat) (hP : 1 ≤ P) :
    ∀ (d p : Nat), 1 ≤ p → p + d = lastPage N P →
      runIter (mockServer N P) ((N - p * P) + 1)
          ⟨[], clientSend (mockServer N P) (mockParams p)⟩ =
        ((List.range N).drop (p * P), followParams (p + 1) d, .exhausted) := by
  intro d
  induction d with
  | zero =>
    intro p hp hL
    have hpL : p = lastPage N P := by omega
    have hterm : ZoneIterator.can_iter (mockMeta N P p) = false := by
      simp [ZoneIterator.can_iter, mockMeta]
      omega
    have hresp : clientSend (mockServer N P) (mockParams p) =
        ⟨Body.ok (mockMeta N P p) (pageSlice N P p), mockParams p⟩ := by
      simp [clientSend, mockServer_mockParams N P p hp]
    rw [hresp, runIter_terminal _ _ _ _ _ hterm]
    have hbound : N ≤ p * P := by
      have hle := le_lastPage_mul N P hP
      rw [← hpL] at hle
      exact hle
    have hdrop : (List.range N).drop (p * P) = [] := by
      apply List.drop_eq_nil_of_le
      simpa using hbound
    rw [hdrop]
    rfl
  | succ d ih =>
    intro p hp hL
    have hpL : p < lastPage N P := by omega
    have hlt : p * P < N := lt_lastPage_mul N P p hP hp hpL
    have hc : ZoneIterator.can_iter (mockMeta N P p) = true := by
      simp [ZoneIterator.can_iter, mockMeta]
      exact hpL
    have hq := resolve_mockParams p hp
    obtain ⟨z, zrest, hz⟩ :=
      List.exists_cons_of_ne_nil (pageSlice_succ_ne_nil N P p hP hlt)
    have hsend : mockServer N P (mockParams (p + 1)) =
        Body.ok (mockMeta N P (p + 1)) (z :: zrest) := by
      rw [mockServer_mockParams N P (p + 1) (by omega), hz]
    have hresp : clientSend (mockServer N P) (mockParams p) =
        ⟨Body.ok (mockMeta N P p) (pageSlice N P p), mockParams p⟩ := by
      simp [clientSend, mockServer_mockParams N P p hp]
    have hfuel : (N - p * P) + 1 = (N - p * P - 1) + 1 + 1 := by
      have hX : ∃ X, p * P = X := ⟨_, rfl⟩
      obtain ⟨X, hX⟩ := hX
      rw [hX] at hlt ⊢
      omega
    rw [hresp, hfuel,
      runIter_advance (mockServer N P) _ (mockMeta N P p) (mockMeta N P (p + 1))
        (pageSlice N P p) zrest (mockParams p) (mockParams (p + 1)) z hc hq hsend]
    have hlen : zrest.length + 1 = min P (N - p * P) := by
      have := pageSlice_succ_length N P p
      rw [hz] at this
      simpa using this
    have hmul : (p + 1) * P = p * P + P := Nat.succ_mul p P
    have hdrain : (N - p * P - 1) + 1 =
        zrest.length + ((N - (p + 1) * P) + 1) := by
      obtain ⟨X, hX⟩ : ∃ X, p * P = X := ⟨_, rfl⟩
      rw [hX] at hlt hlen
      rw [hX]
      rw [hmul, hX]
      omega
    rw [runIter_drain (mockServer N P) zrest _ ((N - (p + 1) * P) + 1) _ hdrain]
    rw [ih (p + 1) (by omega) (by omega)]
    have htail : z :: (zrest ++ (List.range N).drop ((p + 1) * P)) =
        (List.range N).drop (p * P) := by
      have hdd : (List.range N).drop ((p + 1) * P) =
          (((List.range N).drop (p * P)).drop P) := by
        rw [List.drop_drop]
        congr 1
      rw [hdd, ← List.cons_append, ← hz, pageSlice_succ]
      exact List.take_append_drop P _
    rw [← htail]
    rfl

/-- End-to-end pagination run against the well-formed mock endpoint:
`N` entities in page order, `lastPage N P` HTTP requests in total (the
seed request plus one per follow-up page), ending in exhaustion; fuel
`N + 1` (one step per entity plus the final `StopIteration`) suffices. -/
theorem all_run_eq (send : Params → Body) (params : Params) (fuel : Nat)
    (s : ZoneIterator)
    (h : ZoneIterator.init (clientSend send params) = .ok s) :
    DnsZone.all_run send params fuel =
      ((runIter send fuel s).1, 1 + (runIter send fuel s).2.1.length,
        (runIter send fuel s).2.2) := by
  unfold DnsZone.all_run
  rw [h]

theorem mock_all_run (N P : Nat) (hP : 1 ≤ P) :
    DnsZone.all_run (mockServer N P) [] (N + 1) =
      (List.range N, lastPage N P, .exhausted) := by
  have hL1 : 1 ≤ lastPage N P := lastPage_pos N P
  have hresp : clientSend (mockServer N P) [] =
      ⟨Body.ok (mockMeta N P 1) (pageSlice N P 1), []⟩ := rfl
  have hinit : ZoneIterator.init (clientSend (mockServer N P) []) =
      .ok ⟨pageSlice N P 1, clientSend (mockServer N P) []⟩ := by
    rw [hresp]
    rfl
  rw [all_run_eq (mockServer N P) [] (N + 1) _ hinit]
  have hslice1 : (pageSlice N P 1).length = min P N := by
    have := pageSlice_succ_length N P 0
    simpa using this
  have hfuel : N + 1 = (pageSlice N P 1).length + ((N - 1 * P) + 1) := by
    rw [hslice1, one_mul]
    rcases Nat.le_total P N with h | h
    · rw [Nat.min_eq_left h]
      omega
    · rw [Nat.min_eq_right h]
      omega
  rw [runIter_drain (mockServer N P) (pageSlice N P 1) _ ((N - 1 * P) + 1) _
    hfuel]
  have hmp1 : clientSend (mockServer N P) [] =
      clientSend (mockServer N P) (mockParams 1) := rfl
  rw [hmp1, mock_drain N P hP (lastPage N P - 1) 1 (by omega) (by omega)]
  have hents : pageSlice N P 1 ++ (List.range N).drop (1 * P) =
      List.range N := by
    have h1 : pageSlice N P 1 = (List.range N).take P := by
      have := pageSlice_succ N P 0
      simpa using this
    rw [h1, one_mul]
    exact List.take_append_drop P _
  rw [hents, followParams_length]
  have hcount : 1 + (lastPage N P - 1) = lastPage N P := by omega
  rw [hcount]

/-! ### Claims C2, C6, C7: the Page Cursor -/

/-- C2 as amended. Iterating the cursor end-to-end over a well-formed
endpoint serving `N` entities at `per_page = P` yields exactly the `N`
entities in page order and then signals end of sequence; the number of
HTTP requests issued equals `max 1 ⌈N/P⌉` — that is `⌈N/P⌉` whenever
`N ≥ 1`, while for `N = 0` the seed request is still issued.  Whenever a
response's `PageMeta` has `page ≥ last_page`, `get_next` issues no further
request. -/
theorem claim_C2_pagination_termination (N P : Nat) (hP : 1 ≤ P) :
    (DnsZone.all_run (mockServer N P) [] (N + 1) =
      (List.range N, lastPage N P, IterOutcome.exhausted)) ∧
    lastPage N P = max 1 ((N + P - 1) / P) ∧
    (∀ (send : Params → Body) (s : ZoneIterator) (meta : PageMeta)
      (zs : List Nat), s.response.body = Body.ok meta zs →
      meta.last_page ≤ meta.page →
      ZoneIterator.get_next send s = ([], Except.ok s)) := by
  refine ⟨mock_all_run N P hP, rfl, ?_⟩
  intro send s meta zs hbody hle
  have hterm : ZoneIterator.can_iter meta = false := by
    simp [ZoneIterator.can_iter]
    omega
  unfold ZoneIterator.get_next ZoneIterator.extract_meta
  rw [hbody]
  simp [hterm]

/-- Witness for C2 at `N = 5`, `P = 2`: five entities over three pages. -/
theorem claim_C2_witness :
    DnsZone.all_run (mockServer 5 2) [] 6 =
      (List.range 5, lastPage 5 2, IterOutcome.exhausted) :=
  (claim_C2_pagination_termination 5 2 (by decide)).1

/-- Counterexample to C2 as frozen: a well-formed endpoint serving `N = 0`
entities (meta `page = 1, last_page = 1, total_entries = 0`) still costs
the seed request, so the number of requests issued is `1`, not
`⌈0/P⌉ = 0`. -/
theorem claim_C2_counterexample :
    DnsZone.all_run (mockServer 0 100) [] 1 =
      ([], 1, IterOutcome.exhausted) ∧
    (0 + 100 - 1) / 100 = 0 ∧ (1 : Nat) ≠ 0 := by
  refine ⟨rfl, by decide, by decide⟩

/-- C6. Parameter propagation of `resolve_query`: the follow-up request
keeps every query parameter other than `page` unchanged, and sets `page`
to the previous request's value plus one, defaulting to `2` when the
previous request carried no `page` parameter. -/
theorem claim_C6_param_propagation (q : Params) :
    (getParam q "page" = none →
      ZoneIterator.resolve_query q = some (setParam q "page" (Nat.repr 2)) ∧
      getParam (setParam q "page" (Nat.repr 2)) "page" = some (Nat.repr 2) ∧
      ∀ k, k ≠ "page" →
        getParam (setParam q "page" (Nat.repr 2)) k = getParam q k) ∧
    (∀ s n, getParam q "page" = some s → pyInt s = some n →
      ZoneIterator.resolve_query q =
        some (setParam q "page" (Nat.repr (n + 1))) ∧
      getParam (setParam q "page" (Nat.repr (n + 1))) "page" =
        some (Nat.repr (n + 1)) ∧
      ∀ k, k ≠ "page" →
        getParam (setParam q "page" (Nat.repr (n + 1))) k = getParam q k) := by
  constructor
  · intro hnone
    refine ⟨?_, getParam_setParam_same q _ _,
      fun k hk => getParam_setParam_other q _ _ k hk⟩
    unfold ZoneIterator.resolve_query
    rw [hnone]
  · intro s n hsome hn
    have hs : s ≠ "" := by
      intro he
      rw [he] at hn
      exact Option.noConfusion ((rfl : pyInt "" = none) ▸ hn)
    refine ⟨?_, getParam_setParam_same q _ _,
      fun k hk => getParam_setParam_other q _ _ k hk⟩
    unfold ZoneIterator.resolve_query
    rw [hsome]
    simp only [if_neg hs, hn]
    rfl

/-- Witness for C6: a `search_name=foo` filter with `page=1` propagates to
the next request as `search_name=foo, page=2`. -/
theorem claim_C6_witness :
    ZoneIterator.resolve_query [("search_name", "foo"), ("page", "1")] =
      some (setParam [("search_name", "foo"), ("page", "1")] "page"
        (Nat.repr (1 + 1))) ∧
    getParam (setParam [("search_name", "foo"), ("page", "1")] "page"
        (Nat.repr (1 + 1))) "page" = some (Nat.repr (1 + 1)) ∧
    ∀ k, k ≠ "page" →
      getParam (setParam [("search_name", "foo"), ("page", "1")] "page"
          (Nat.repr (1 + 1))) k =
        getParam [("search_name", "foo"), ("page", "1")] k :=
  (claim_C6_param_propagation [("search_name", "foo"), ("page", "1")]).2
    "1" 1 (by decide)
    (by rw [(by decide : ("1" : String) = Nat.repr 1)]; exact toNat?_repr 1)

/-- A list endpoint whose page 1 is fine (two of four entities,
`last_page = 2`) but whose page 2 response does not decode. -/
def malformedMeta : PageMeta :=
  { page := 1, per_page := 2, last_page := 2, total_entries := 4 }

def malformedServer (q : Params) : Body :=
  match getParam q "page" with
  | none => Body.ok malformedMeta [0, 1]
  | some _ => Body.malformed

/-- Counterexample to C7 as frozen: on the endpoint whose second page is
malformed, the cursor does not treat the malformed page as terminal — it
yields the first page's entities and then raises `HetznerApiError` (from
`extract_content`), not end-of-sequence. -/
theorem claim_C7_counterexample :
    DnsZone.all_run malformedServer [] 3 =
      ([0, 1], 2,
        IterOutcome.failed (PyErr.hetznerApiError "Unable to parse response")) ∧
    IterOutcome.failed (PyErr.hetznerApiError "Unable to parse response") ≠
      IterOutcome.exhausted := by
  refine ⟨rfl, by decide⟩

/-- C7 as amended. When the next page's response has an unparsable body
(or absent `PageMeta` — either way `DnsZoneListResponse` fails to
decode), the cursor yields every entity still pending and then raises
`HetznerApiError` (the `ParseError` of the envelope decoder); it does not
silently signal end of sequence, and the entities already yielded are
unaffected. -/
theorem claim_C7_malformed_page (send : Params → Body) (meta : PageMeta)
    (zs cur : List Nat) (q q2 : Params) (fuel : Nat)
    (hc : ZoneIterator.can_iter meta = true)
    (hq : ZoneIterator.resolve_query q = some q2)
    (hmal : send q2 = Body.malformed) :
    runIter send (cur.length + (fuel + 1)) ⟨cur, ⟨Body.ok meta zs, q⟩⟩ =
      (cur, [q2],
        IterOutcome.failed (PyErr.hetznerApiError "Unable to parse response")) := by
  rw [runIter_drain send cur _ (fuel + 1) _ rfl,
    runIter_malformed send fuel meta zs q q2 hc hq hmal]
  simp

/-- Witness for C7's amended statement on the concrete malformed
endpoint. -/
theorem claim_C7_witness :
    runIter malformedServer ([0, 1].length + (0 + 1))
        ⟨[0, 1], ⟨Body.ok malformedMeta [0, 1], []⟩⟩ =
      ([0, 1], [[("page", Nat.repr 2)]],
        IterOutcome.failed (PyErr.hetznerApiError "Unable to parse response")) :=
  claim_C7_malformed_page malformedServer malformedMeta [0, 1] [0, 1] []
    [("page", Nat.repr 2)] 0 (by decide) (by decide) (by decide)

/-! ### Entity views (`base.py`, `zone.py`, `records.py`)

HTTP requests are method + path (query/body omitted: the claims below
concern which requests are issued and how statuses map to errors).
Decoding of successful bodies is abstracted: operations return the
validated response. -/

structure Request where
  method : String
  path : String
deriving Repr, DecidableEq

structure HttpResponse where
  status : Nat
  text : String
  req : Request
deriving Repr, DecidableEq

/-- `BaseApiView._validate_response` from `base.py`, transcribed branch by
branch: `404` → `HetznerApiNotFoundError` carrying the request path,
`401` → `AuthorizationFailedError`, any other status outside
`(200, 201, 204)` → `HetznerApiError` carrying the status and raw body
text; otherwise no exception. -/
def BaseApiView._validate_response (response : HttpResponse) :
    Except PyErr Unit :=
  if response.status = 404 then
    Except.error (PyErr.hetznerApiNotFoundError response.req.path)
  else if response.status = 401 then
    Except.error PyErr.authorizationFailedError
  else if ¬ (response.status = 200 ∨ response.status = 201 ∨
      response.status = 204) then
    Except.error (PyErr.hetznerApiError
      ("HTTP Error " ++ Nat.repr response.status ++
        " received from Hetzner API: " ++ response.text))
  else
    Except.ok ()

/-- The attribute table of a `BaseApiView` instance.  `__init__` in
`base.py` assigns `self.client`; no code assigns `self._client`, yet
every method of `DnsRecord` and the bulk handlers in `records.py` reads
`self._client`.  Reading an attribute that was never assigned raises
`AttributeError`. -/
structure BaseApiView where
  client : Option Unit
  _client : Option Unit
deriving Repr, DecidableEq

/-- `BaseApiView.__init__(self, client)`: `self.client = client`. -/
def BaseApiView.init (client : Unit) : BaseApiView :=
  { client := some client, _client := none }

/-- A transport whose every response is `200` with an empty body. -/
def okServer (r : Request) : HttpResponse :=
  { status := 200, text := "", req := r }

/-- `DnsRecord.get` from `records.py`: one `GET /records/{id}` through
`self._client`, validated then decoded.  The first component lists the
HTTP requests actually issued. -/
def DnsRecord.get (self : BaseApiView) (send : Request → HttpResponse)
    (record_id : String) : List Request × Except PyErr HttpResponse :=
  match self._client with
  | none => ([], Except.error (PyErr.attributeError "_client"))
  | some _ =>
    match BaseApiView._validate_response
        (send { method := "GET", path := "/records/" ++ record_id }) with
    | Except.error e =>
      ([{ method := "GET", path := "/records/" ++ record_id }],
        Except.error e)
    | Except.ok _ =>
      ([{ method := "GET", path := "/records/" ++ record_id }],
        Except.ok (send { method := "GET", path := "/records/" ++ record_id }))

/-- `DnsBulkUpdateRecord.submit` from `records.py`: one
`PUT /records/bulk` through `self._client`. -/
def DnsBulkUpdateRecord.submit (self : BaseApiView)
    (send : Request → HttpResponse) :
    List Request × Except PyErr HttpResponse :=
  match self._client with
  | none => ([], Except.error (PyErr.attributeError "_client"))
  | some _ =>
    match BaseApiView._validate_response
        (send { method := "PUT", path := "/records/bulk" }) with
    | Except.error e =>
      ([{ method := "PUT", path := "/records/bulk" }], Except.error e)
    | Except.ok _ =>
      ([{ method := "PUT", path := "/records/bulk" }],
        Except.ok (send { method := "PUT", path := "/records/bulk" }))

/-- `DnsZone.get` from `zone.py`: one `GET /zones/{id}` through
`self.client` (which `__init__` does assign). -/
def DnsZone.get (self : BaseApiView) (send : Request → HttpResponse)
    (zone_id : String) : List Request × Except PyErr HttpResponse :=
  match self.client with
  | none => ([], Except.error (PyErr.attributeError "client"))
  | some _ =>
    match BaseApiView._validate_response
        (send { method := "GET", path := "/zones/" ++ zone_id }) with
    | Except.error e =>
      ([{ method := "GET", path := "/zones/" ++ zone_id }], Except.error e)
    | Except.ok _ =>
      ([{ method := "GET", path := "/zones/" ++ zone_id }],
        Except.ok (send { method := "GET", path := "/zones/" ++ zone_id }))

/-- `DnsZone.delete` from `zone.py`, transcribed exactly: the path it
builds is `f"/zones/{zone_id}/import"`. -/
def DnsZone.delete (self : BaseApiView) (send : Request → HttpResponse)
    (zone_id : String) : List Request × Except PyErr Unit :=
  match self.client with
  | none => ([], Except.error (PyErr.attributeError "client"))
  | some _ =>
    ([{ method := "DELETE", path := "/zones/" ++ zone_id ++ "/import" }],
      (BaseApiView._validate_response
        (send { method := "DELETE",
                path := "/zones/" ++ zone_id ++ "/import" })).map
        (fun _ => ()))

/-- `DnsZone.import_zone` from `zone.py`, transcribed exactly: it POSTs
to `f"/zones/{zone_id}"` (not `/zones/{id}/import`). -/
def DnsZone.import_zone (self : BaseApiView) (send : Request → HttpResponse)
    (zone_id : String) : List Request × Except PyErr HttpResponse :=
  match self.client with
  | none => ([], Except.error (PyErr.attributeError "client"))
  | some _ =>
    match BaseApiView._validate_response
        (send { method := "POST", path := "/zones/" ++ zone_id }) with
    | Except.error e =>
      ([{ method := "POST", path := "/zones/" ++ zone_id }], Except.error e)
    | Except.ok _ =>
      ([{ method := "POST", path := "/zones/" ++ zone_id }],
        Except.ok (send { method := "POST", path := "/zones/" ++ zone_id }))

/-- The HTTP path surface the spec allows, for an entity id `id`. -/
def apiPathSurface (id : String) : List String :=
  ["/zones", "/zones/" ++ id, "/zones/" ++ id ++ "/export",
   "/zones/" ++ id ++ "/validate", "/records", "/records/" ++ id,
   "/records/bulk"]

/-! ### Claims C8, C9, C10 -/

/-- C8 (code bug). The record-view operations read `self._client`, which
`BaseApiView.__init__` never assigns (it assigns `self.client`): on a
freshly constructed view, `DnsRecord.get` and the bulk submit raise
`AttributeError` before issuing any HTTP request, instead of issuing
exactly one request and returning the decoded result.  The zone view,
which reads `self.client`, does issue exactly one request. -/
theorem claim_C8_single_request :
    DnsRecord.get (BaseApiView.init ()) okServer "r1" =
      ([], Except.error (PyErr.attributeError "_client")) ∧
    DnsBulkUpdateRecord.submit (BaseApiView.init ()) okServer =
      ([], Except.error (PyErr.attributeError "_client")) ∧
    (DnsZone.get (BaseApiView.init ()) okServer "z1").1.length = 1 := by
  refine ⟨rfl, rfl, rfl⟩

/-- C9 (code bug). `DnsZone.delete` issues its `DELETE` against
`/zones/{id}/import` — a path outside the spec's surface — instead of
`/zones/{id}` (the `/import` suffix belongs to zone import, whose own
path in turn lacks it). -/
theorem claim_C9_delete_path :
    (DnsZone.delete (BaseApiView.init ()) okServer "z1").1 =
      [{ method := "DELETE", path := "/zones/z1/import" }] ∧
    "/zones/z1/import" ∉ apiPathSurface "z1" ∧
    "/zones/z1/import" ≠ "/zones/" ++ "z1" ∧
    (DnsZone.import_zone (BaseApiView.init ()) okServer "z1").1 =
      [{ method := "POST", path := "/zones/z1" }] := by
  refine ⟨rfl, by decide, by decide, rfl⟩

/-- C10. Status mapping of `_validate_response`: `404` raises the
not-found error kind carrying the request path, `401` raises the
authorization-failed kind, any other status outside `{200, 201, 204}`
raises the generic API error carrying the status code and the raw body
text, and `200`, `201`, `204` raise nothing. -/
theorem claim_C10_status_mapping (r : HttpResponse) :
    (r.status = 404 →
      BaseApiView._validate_response r =
        Except.error (PyErr.hetznerApiNotFoundError r.req.path)) ∧
    (r.status = 401 →
      BaseApiView._validate_response r =
        Except.error PyErr.authorizationFailedError) ∧
    (r.status ≠ 404 → r.status ≠ 401 → r.status ≠ 200 → r.status ≠ 201 →
      r.status ≠ 204 →
      BaseApiView._validate_response r =
        Except.error (PyErr.hetznerApiError
          ("HTTP Error " ++ Nat.repr r.status ++
            " received from Hetzner API: " ++ r.text))) ∧
    (r.status = 200 ∨ r.status = 201 ∨ r.status = 204 →
      BaseApiView._validate_response r = Except.ok ()) := by
  unfold BaseApiView._validate_response
  refine ⟨?_, ?_, ?_, ?_⟩
  · intro h
    rw [if_pos h]
  · intro h
    rw [if_neg (by omega), if_pos h]
  · intro h1 h2 h3 h4 h5
    rw [if_neg h1, if_neg h2, if_pos (by tauto)]
  · intro h
    rw [if_neg (by omega), if_neg (by omega), if_neg (by tauto)]

/-- Witness for C10 at the four status classes (`500` with body
`"server exploded"` for the generic case). -/
theorem claim_C10_witness :
    (BaseApiView._validate_response ⟨404, "", ⟨"GET", "/zones/z1"⟩⟩ =
      Except.error (PyErr.hetznerApiNotFoundError "/zones/z1")) ∧
    (BaseApiView._validate_response ⟨401, "", ⟨"GET", "/zones"⟩⟩ =
      Except.error PyErr.authorizationFailedError) ∧
    (BaseApiView._validate_response ⟨500, "server exploded", ⟨"GET", "/zones"⟩⟩ =
      Except.error (PyErr.hetznerApiError
        ("HTTP Error " ++ Nat.repr 500 ++
          " received from Hetzner API: " ++ "server exploded"))) ∧
    (BaseApiView._validate_response ⟨200, "", ⟨"GET", "/zones"⟩⟩ =
      Except.ok ()) :=
  ⟨(claim_C10_status_mapping _).1 rfl,
   (claim_C10_status_mapping _).2.1 rfl,
   (claim_C10_status_mapping _).2.2.1 (by decide) (by decide) (by decide)
     (by decide) (by decide),
   (claim_C10_status_mapping _).2.2.2 (Or.inl rfl)⟩
